import Mathlib

/-!
Verification of the target-encoder component of the repository
(`src/preprocessing/target_encoder.py`), via a shallow embedding.

Python values appearing in a dataframe column or in the `allowed_values`
configuration are modelled by `PyVal`; Python `str()` is `pyStr`.
A pandas dataframe is modelled by its named columns; a Python `dict`
built by successive key assignments is modelled by `dictInsert` /
`dictGet` on association lists.  A raised `ValueError` is modelled by
`Except.error` with a `TError` payload distinguishing the two messages
(lines 50 and 52 of the source); a returned pandas Series of codes is
`Except.ok (some codes)`, where an entry is `none` when `Series.map`
leaves `NaN` for a key absent from the mapping dict;
`Except.ok none` is the `None` return for a missing target column.
-/

set_option autoImplicit false

/-- A Python value that can appear in a column or in `allowed_values`. -/
inductive PyVal where
  | str (s : String)
  | int (n : Int)
deriving DecidableEq, Repr

/-- Python `str()` applied to a `PyVal`. -/
def pyStr : PyVal → String
  | .str s => s
  | .int n => toString n

/-- A pandas DataFrame: an ordered association of column names to columns. -/
structure DFrame where
  cols : List (String × List PyVal)
deriving DecidableEq, Repr

/-- `data.columns` of the dataframe. -/
def DFrame.columns (d : DFrame) : List String :=
  d.cols.map Prod.fst

/-- `data[name]`: the column named `name` (first match; `[]` if absent,
which `transform` never reads since it checks membership first). -/
def DFrame.getCol (d : DFrame) (name : String) : List PyVal :=
  match d.cols.find? (fun p => decide (p.1 = name)) with
  | some p => p.2
  | none => []

/-- Python dict assignment `d[k] = v`: overwrites the value when the key
is present, appends a new entry otherwise. -/
def dictInsert (d : List (String × Nat)) (k : String) (v : Nat) :
    List (String × Nat) :=
  if d.any (fun p => decide (p.1 = k)) then
    d.map (fun p => if p.1 = k then (k, v) else p)
  else
    d ++ [(k, v)]

/-- Python dict lookup `d.get(k)` (and the lookup `Series.map` performs,
yielding `NaN`, modelled `none`, for an absent key). -/
def dictGet (d : List (String × Nat)) (k : String) : Option Nat :=
  (d.find? (fun p => decide (p.1 = k))).map Prod.snd

/-- Encoder state: the fields set by `CustomTargetEncoder.__init__`. -/
structure CustomTargetEncoder where
  target_field : String
  classes_ : List String
  class_encoding : List (String × Nat)
deriving DecidableEq, Repr

/-- `CustomTargetEncoder.__init__(target_field, allowed_values)`:
`classes_ = [str(c) for c in allowed_values]` and
`class_encoding = {classes_[0]: 0, classes_[1]: 1}`.  The subscripts
`classes_[0]` / `classes_[1]` raise `IndexError` when `allowed_values`
has fewer than two elements, modelled by `none`. -/
def CustomTargetEncoder.init (target_field : String)
    (allowed_values : List PyVal) : Option CustomTargetEncoder :=
  match allowed_values.map pyStr with
  | c0 :: c1 :: _ =>
      some { target_field := target_field
             classes_ := allowed_values.map pyStr
             class_encoding := dictInsert (dictInsert [] c0 0) c1 1 }
  | _ => none

/-- The distinct `ValueError`s of `transform` (source lines 50 and 52),
each carrying the configured classes and the observed classes that the
Python messages interpolate. -/
inductive TError where
  | wrongClassCount (classes : List String) (observed : List String)
  | classMismatch (classes : List String) (observed : List String)
deriving DecidableEq, Repr

/-- `CustomTargetEncoder.transform(data)` (source lines 37-56):
if the target column is present, stringify it (`astype(str)`), take the
set of distinct values, raise when the distinct count is not 2, raise
when the intersection with `classes_` does not have size 2, otherwise
map every stringified value through `class_encoding`; if the target
column is absent, return `None`. -/
def CustomTargetEncoder.transform (e : CustomTargetEncoder) (data : DFrame) :
    Except TError (Option (List (Option Nat))) :=
  if e.target_field ∈ data.columns then
    let targets := (data.getCol e.target_field).map pyStr
    let observed_classes := targets.dedup
    if observed_classes.length ≠ 2 then
      .error (.wrongClassCount e.classes_ observed_classes)
    else if (observed_classes.filter
        (fun c => decide (c ∈ e.classes_))).length ≠ 2 then
      .error (.classMismatch e.classes_ observed_classes)
    else
      .ok (some (targets.map (fun t => dictGet e.class_encoding t)))
  else
    .ok none

/-- `CustomTargetEncoder.fit(data)`: a no-op returning `self`. -/
def CustomTargetEncoder.fit (e : CustomTargetEncoder) (_data : DFrame) :
    CustomTargetEncoder :=
  e

/-- Stateful reading of `transform`: the method together with the encoder
object and the input dataframe after the call.  Every pandas operation in
the body (`astype`, `set`, `apply`, `map`) allocates a fresh object, so
each exit path returns the received `e` and `data` unchanged. -/
def CustomTargetEncoder.transformS (e : CustomTargetEncoder) (data : DFrame) :
    Except TError (Option (List (Option Nat))) × CustomTargetEncoder × DFrame :=
  if e.target_field ∈ data.columns then
    let targets := (data.getCol e.target_field).map pyStr
    let observed_classes := targets.dedup
    if observed_classes.length ≠ 2 then
      (.error (.wrongClassCount e.classes_ observed_classes), e, data)
    else if (observed_classes.filter
        (fun c => decide (c ∈ e.classes_))).length ≠ 2 then
      (.error (.classMismatch e.classes_ observed_classes), e, data)
    else
      (.ok (some (targets.map (fun t => dictGet e.class_encoding t))), e, data)
  else
    (.ok none, e, data)

/-- The schema object consumed by `get_target_encoder`. -/
structure BinaryClassificationSchema where
  target : String
  allowed_target_values : List PyVal
deriving DecidableEq, Repr

/-- `get_target_encoder(data_schema)` (source lines 59-73). -/
def get_target_encoder (data_schema : BinaryClassificationSchema) :
    Option CustomTargetEncoder :=
  CustomTargetEncoder.init data_schema.target data_schema.allowed_target_values

/-- `train_target_encoder(target_encoder, train_data)` (source lines
77-91): calls `fit` (discarding the result) and returns the encoder. -/
def train_target_encoder (target_encoder : CustomTargetEncoder)
    (train_data : DFrame) : CustomTargetEncoder :=
  let _fitted := target_encoder.fit train_data
  target_encoder

/-- `transform_targets(target_encoder, data)` (source lines 94-107). -/
def transform_targets (target_encoder : CustomTargetEncoder)
    (data : DFrame) : Except TError (Option (List (Option Nat))) :=
  target_encoder.transform data

/-- Modelled from the spec: the durable artifact store behind `joblib`,
which is a third-party serialization library, not part of this
repository.  Per the spec, dump-then-load reconstructs the full object
state; the store maps paths to stored encoder objects. -/
def JoblibStore : Type :=
  List (String × CustomTargetEncoder)

/-- Modelled from the spec: `joblib.dump(obj, path)` writes the object
state at the path, replacing what was there. -/
def joblib_dump (obj : CustomTargetEncoder) (path : String)
    (store : JoblibStore) : JoblibStore :=
  (path, obj) :: List.filter (fun p => decide (p.1 ≠ path)) store

/-- Modelled from the spec: `joblib.load(path)` reads back the object
state stored at the path (`none` for a missing file). -/
def joblib_load (path : String) (store : JoblibStore) :
    Option CustomTargetEncoder :=
  (List.find? (fun p => decide (p.1 = path)) store).map Prod.snd

/-- `save_target_encoder(target_encoder, file_path_and_name)` (source
lines 110-117). -/
def save_target_encoder (target_encoder : CustomTargetEncoder)
    (file_path_and_name : String) (store : JoblibStore) : JoblibStore :=
  joblib_dump target_encoder file_path_and_name store

/-- `load_target_encoder(file_path_and_name)` (source lines 119-128). -/
def load_target_encoder (file_path_and_name : String)
    (store : JoblibStore) : Option CustomTargetEncoder :=
  joblib_load file_path_and_name store

/-! ### Concrete fixtures used by witnesses and counterexamples -/

/-- The encoder built from `allowed_values=["A","B"]` on target `"t"`. -/
def encAB : CustomTargetEncoder :=
  ⟨"t", ["A", "B"], [("A", 0), ("B", 1)]⟩

/-- The encoder built from `allowed_values=["A","B","C"]` on target `"t"`. -/
def encABC : CustomTargetEncoder :=
  ⟨"t", ["A", "B", "C"], [("A", 0), ("B", 1)]⟩

/-- A dataframe whose target column is `["B","A","B","A"]`. -/
def dfBABA : DFrame :=
  ⟨[("t", [PyVal.str "B", PyVal.str "A", PyVal.str "B", PyVal.str "A"])]⟩

/-- A dataframe whose target column is `["A","C"]`. -/
def dfAC : DFrame :=
  ⟨[("t", [PyVal.str "A", PyVal.str "C"])]⟩

/-- A dataframe whose target column is `["A","A"]` (one distinct value). -/
def dfAA : DFrame :=
  ⟨[("t", [PyVal.str "A", PyVal.str "A"])]⟩

/-- A dataframe whose target column is `["C","D"]` (two observed values,
neither configured). -/
def dfCD : DFrame :=
  ⟨[("t", [PyVal.str "C", PyVal.str "D"])]⟩

/-- A dataframe with no columns at all. -/
def dfEmpty : DFrame :=
  ⟨[]⟩

/-! ### Helper lemmas on the embedded operations -/

theorem CustomTargetEncoder.init_cons_cons (tf : String) (v0 v1 : PyVal)
    (rest : List PyVal) :
    CustomTargetEncoder.init tf (v0 :: v1 :: rest) =
      some ⟨tf, (v0 :: v1 :: rest).map pyStr,
        dictInsert (dictInsert [] (pyStr v0) 0) (pyStr v1) 1⟩ :=
  rfl

theorem CustomTargetEncoder.init_short (tf : String) (l : List PyVal)
    (h : l.length < 2) : CustomTargetEncoder.init tf l = none := by
  match l with
  | [] => rfl
  | [v] => rfl
  | v0 :: v1 :: rest => simp at h; omega

theorem dictInsert_nil (k : String) (v : Nat) :
    dictInsert [] k v = [(k, v)] :=
  rfl

theorem dictInsert_single_ne (a b : String) (n m : Nat) (h : a ≠ b) :
    dictInsert [(a, n)] b m = [(a, n), (b, m)] := by
  simp [dictInsert, h]

theorem dictInsert_single_eq (a : String) (n m : Nat) :
    dictInsert [(a, n)] a m = [(a, m)] := by
  simp [dictInsert]

theorem dictGet_pair (a b x : String) (n m : Nat) :
    dictGet [(a, n), (b, m)] x =
      if x = a then some n else if x = b then some m else none := by
  by_cases hxa : x = a
  · subst hxa
    simp [dictGet, List.find?]
  · by_cases hxb : x = b
    · subst hxb
      simp [dictGet, List.find?, Ne.symm hxa, hxa]
    · simp [dictGet, List.find?, Ne.symm hxa, Ne.symm hxb, hxa, hxb]

theorem CustomTargetEncoder.transform_missing_col (e : CustomTargetEncoder)
    (data : DFrame) (h : e.target_field ∉ data.columns) :
    e.transform data = Except.ok none := by
  simp [CustomTargetEncoder.transform, h]

theorem CustomTargetEncoder.transform_wrong_count (e : CustomTargetEncoder)
    (data : DFrame) (h : e.target_field ∈ data.columns)
    (hn : ((data.getCol e.target_field).map pyStr).dedup.length ≠ 2) :
    e.transform data =
      Except.error (TError.wrongClassCount e.classes_
        ((data.getCol e.target_field).map pyStr).dedup) := by
  simp only [CustomTargetEncoder.transform, if_pos h]
  rw [if_pos hn]

theorem CustomTargetEncoder.transform_mismatch (e : CustomTargetEncoder)
    (data : DFrame) (h : e.target_field ∈ data.columns)
    (h2 : ((data.getCol e.target_field).map pyStr).dedup.length = 2)
    (hi : (((data.getCol e.target_field).map pyStr).dedup.filter
      (fun c => decide (c ∈ e.classes_))).length ≠ 2) :
    e.transform data =
      Except.error (TError.classMismatch e.classes_
        ((data.getCol e.target_field).map pyStr).dedup) := by
  simp only [CustomTargetEncoder.transform, if_pos h]
  rw [if_neg (by omega), if_pos hi]

theorem CustomTargetEncoder.transform_ok (e : CustomTargetEncoder)
    (data : DFrame) (h : e.target_field ∈ data.columns)
    (h2 : ((data.getCol e.target_field).map pyStr).dedup.length = 2)
    (hi : (((data.getCol e.target_field).map pyStr).dedup.filter
      (fun c => decide (c ∈ e.classes_))).length = 2) :
    e.transform data =
      Except.ok (some (((data.getCol e.target_field).map pyStr).map
        (fun t => dictGet e.class_encoding t))) := by
  simp only [CustomTargetEncoder.transform, if_pos h]
  rw [if_neg (by omega), if_neg (by omega)]

/-! ### Claim theorems -/

/-- C2: for every encoder and input dataframe whose target column is
present, if the number of distinct stringified values observed in that
column is not exactly 2, `transform` raises the wrong-class-count
`ValueError`, regardless of whether the observed values match the
configured classes. -/
theorem C2_wrong_class_count (e : CustomTargetEncoder) (data : DFrame)
    (hcol : e.target_field ∈ data.columns)
    (hn : ((data.getCol e.target_field).map pyStr).dedup.length ≠ 2) :
    e.transform data =
      Except.error (TError.wrongClassCount e.classes_
        ((data.getCol e.target_field).map pyStr).dedup) :=
  CustomTargetEncoder.transform_wrong_count e data hcol hn

/-- Witness for C2: a single-class column `["A","A"]` under the
`["A","B"]` configuration raises the wrong-class-count error. -/
theorem C2_wrong_class_count_witness :
    encAB.transform dfAA =
      Except.error (TError.wrongClassCount ["A", "B"] ["A"]) := by
  have h := C2_wrong_class_count encAB dfAA (by decide) (by decide)
  exact h.trans rfl

/-- Counterexample to C3 as stated: under the configuration
`allowed_values=["A","B","C"]`, the column `["A","C"]` has exactly two
distinct observed values, and their intersection with the set of the two
configured classes `{classes_[0], classes_[1]} = {"A","B"}` has size 1,
yet `transform` raises nothing: it succeeds, producing `[0, NaN]`.  The
intersection check of the source uses the whole `classes_` list, not
only its first two entries. -/
theorem C3_counterexample :
    CustomTargetEncoder.init "t"
      [PyVal.str "A", PyVal.str "B", PyVal.str "C"] = some encABC ∧
    encABC.classes_ = ["A", "B", "C"] ∧
    ((dfAC.getCol "t").map pyStr).dedup.length = 2 ∧
    (((dfAC.getCol "t").map pyStr).dedup.filter
      (fun c => decide (c ∈ (["A", "B"] : List String)))).length = 1 ∧
    encABC.transform dfAC = Except.ok (some [some 0, none]) :=
  ⟨rfl, rfl, rfl, rfl, rfl⟩

/-- C3 (amended): for every encoder and input dataframe whose target
column is present with exactly 2 distinct stringified values, if the
intersection of the observed values with the full configured `classes_`
list does not have size 2, `transform` raises the class-mismatch
`ValueError`. -/
theorem C3_class_mismatch (e : CustomTargetEncoder) (data : DFrame)
    (hcol : e.target_field ∈ data.columns)
    (h2 : ((data.getCol e.target_field).map pyStr).dedup.length = 2)
    (hi : (((data.getCol e.target_field).map pyStr).dedup.filter
      (fun c => decide (c ∈ e.classes_))).length ≠ 2) :
    e.transform data =
      Except.error (TError.classMismatch e.classes_
        ((data.getCol e.target_field).map pyStr).dedup) :=
  CustomTargetEncoder.transform_mismatch e data hcol h2 hi

/-- Witness for C3 (amended): the column `["C","D"]` under the
`["A","B"]` configuration raises the class-mismatch error. -/
theorem C3_class_mismatch_witness :
    encAB.transform dfCD =
      Except.error (TError.classMismatch ["A", "B"] ["C", "D"]) := by
  have h := C3_class_mismatch encAB dfCD (by decide) (by decide) (by decide)
  exact h.trans rfl

/-- C4: for every encoder and input dataframe in which the configured
target field is not among the columns, `transform` returns the
absence-marker `None` and raises no error, whatever else the dataframe
holds (including the empty dataframe). -/
theorem C4_missing_target_is_absence (e : CustomTargetEncoder)
    (data : DFrame) (h : e.target_field ∉ data.columns) :
    e.transform data = Except.ok none :=
  CustomTargetEncoder.transform_missing_col e data h

/-- Witness for C4: transforming the empty dataframe with the
`["A","B"]` encoder returns the absence-marker. -/
theorem C4_missing_target_is_absence_witness :
    encAB.transform dfEmpty = Except.ok none :=
  C4_missing_target_is_absence encAB dfEmpty (by decide)

/-- C1: for every encoder constructed with two labels stringifying to
distinct `a` and `b`, and every dataframe whose target column is present
and contains only values stringifying to `a` or `b`, each occurring at
least once, `transform` succeeds and returns one integer code per row in
the original row order, rows stringifying to `a` yielding 0 and rows
stringifying to `b` yielding 1, regardless of which label appears first
or more frequently. -/
theorem C1_two_label_encoding
    (tf a b : String) (va vb : PyVal) (e : CustomTargetEncoder)
    (data : DFrame)
    (ha : pyStr va = a) (hb : pyStr vb = b) (hab : a ≠ b)
    (he : CustomTargetEncoder.init tf [va, vb] = some e)
    (hcol : tf ∈ data.columns)
    (hvals : ∀ v ∈ data.getCol tf, pyStr v = a ∨ pyStr v = b)
    (hA : ∃ v ∈ data.getCol tf, pyStr v = a)
    (hB : ∃ v ∈ data.getCol tf, pyStr v = b) :
    e.transform data =
      Except.ok (some ((data.getCol tf).map
        (fun v => if pyStr v = a then some 0 else some 1))) := by
  rw [CustomTargetEncoder.init_cons_cons] at he
  simp only [List.map_cons, List.map_nil, ha, hb, dictInsert_nil,
    dictInsert_single_ne a b 0 1 hab, Option.some.injEq] at he
  subst he
  have key : ∀ x ∈ (data.getCol tf).map pyStr, x = a ∨ x = b := by
    intro x hx
    obtain ⟨v, hv, rfl⟩ := List.mem_map.1 hx
    exact hvals v hv
  have haS : a ∈ (data.getCol tf).map pyStr := by
    obtain ⟨v, hv, hva⟩ := hA
    exact List.mem_map.2 ⟨v, hv, hva⟩
  have hbS : b ∈ (data.getCol tf).map pyStr := by
    obtain ⟨v, hv, hvb⟩ := hB
    exact List.mem_map.2 ⟨v, hv, hvb⟩
  have hfin : ((data.getCol tf).map pyStr).toFinset = {a, b} := by
    ext x
    simp only [List.mem_toFinset, Finset.mem_insert, Finset.mem_singleton]
    refine ⟨fun hx => key x hx, fun hx => ?_⟩
    rcases hx with rfl | rfl
    exacts [haS, hbS]
  have h2 : ((data.getCol tf).map pyStr).dedup.length = 2 := by
    have hcd := List.card_toFinset ((data.getCol tf).map pyStr)
    rw [hfin, Finset.card_pair hab] at hcd
    omega
  have hfil : (((data.getCol tf).map pyStr).dedup.filter
      (fun c => decide (c ∈ ([a, b] : List String))))
      = ((data.getCol tf).map pyStr).dedup := by
    apply List.filter_eq_self.mpr
    intro x hx
    apply decide_eq_true
    rcases key x (List.mem_dedup.1 hx) with rfl | rfl <;> simp
  have hi : (((data.getCol tf).map pyStr).dedup.filter
      (fun c => decide (c ∈ ([a, b] : List String)))).length = 2 := by
    rw [hfil]; exact h2
  rw [CustomTargetEncoder.transform_ok
    ⟨tf, [a, b], [(a, 0), (b, 1)]⟩ data hcol h2 hi]
  have hmap : ((data.getCol tf).map pyStr).map
      (fun s => dictGet [(a, 0), (b, 1)] s)
      = (data.getCol tf).map (fun v => if pyStr v = a then some 0 else some 1) := by
    rw [List.map_map]
    apply List.map_congr_left
    intro v hv
    simp only [Function.comp_apply]
    rcases hvals v hv with h | h
    · simp [dictGet_pair, h]
    · simp [dictGet_pair, h, Ne.symm hab]
  rw [hmap]

/-- Witness for C1: the configuration `["A","B"]` on the column
`["B","A","B","A"]` yields `[1,0,1,0]`: the encoding follows the
configured order, not data order or frequency. -/
theorem C1_two_label_encoding_witness :
    encAB.transform dfBABA = Except.ok (some [some 1, some 0, some 1, some 0]) := by
  have h := C1_two_label_encoding "t" "A" "B" (PyVal.str "A") (PyVal.str "B")
    encAB dfBABA rfl rfl (by decide) rfl (by decide) (by decide) (by decide)
    (by decide)
  exact h.trans rfl

/-- If construction succeeded, the stored target field is the configured
one. -/
theorem CustomTargetEncoder.init_target_field (tf : String) (l : List PyVal)
    (e : CustomTargetEncoder) (h : CustomTargetEncoder.init tf l = some e) :
    e.target_field = tf := by
  match l with
  | [] => exact Option.noConfusion h
  | [v] => exact Option.noConfusion h
  | v0 :: v1 :: rest =>
      rw [CustomTargetEncoder.init_cons_cons] at h
      rw [← Option.some.inj h]

/-- The encoder fixture for target `"y"` with classes `["0","1"]`. -/
def encZO : CustomTargetEncoder :=
  ⟨"y", ["0", "1"], [("0", 0), ("1", 1)]⟩

/-- A dataframe whose target column holds the integers `[1, 0]`. -/
def dfInts : DFrame :=
  ⟨[("y", [PyVal.int 1, PyVal.int 0])]⟩

/-- A dataframe whose target column holds the strings `["1", "0"]`. -/
def dfStrs : DFrame :=
  ⟨[("y", [PyVal.str "1", PyVal.str "0"])]⟩

/-- C5: label matching stringifies both sides with the same coercion:
two configurations whose allowed values stringify alike produce the same
encoder, and two dataframes with the same column names whose target
columns stringify alike transform identically; hence a non-string value
(the integer 1) matches a configured class stringifying to `"1"`. -/
theorem C5_string_coercion
    (tf : String) (l l2 : List PyVal) (e e2 : CustomTargetEncoder)
    (data data2 : DFrame)
    (hl : l.map pyStr = l2.map pyStr)
    (he : CustomTargetEncoder.init tf l = some e)
    (he2 : CustomTargetEncoder.init tf l2 = some e2)
    (hc : data.columns = data2.columns)
    (ht : (data.getCol tf).map pyStr = (data2.getCol tf).map pyStr) :
    e.transform data = e2.transform data2 := by
  have hinit : CustomTargetEncoder.init tf l = CustomTargetEncoder.init tf l2 := by
    unfold CustomTargetEncoder.init
    rw [hl]
  rw [hinit, he2] at he
  have hee : e2 = e := Option.some.inj he
  rw [← hee]
  have htf : e2.target_field = tf :=
    CustomTargetEncoder.init_target_field tf l2 e2 he2
  unfold CustomTargetEncoder.transform
  rw [htf, hc, ht]

/-- Witness for C5: the integer column `[1, 0]` and the string column
`["1", "0"]` encode identically under classes `["0","1"]`, the integers
matching the stringified configuration. -/
theorem C5_string_coercion_witness :
    encZO.transform dfInts = encZO.transform dfStrs ∧
    encZO.transform dfInts = Except.ok (some [some 1, some 0]) := by
  have h := C5_string_coercion "y" [PyVal.int 0, PyVal.int 1]
    [PyVal.str "0", PyVal.str "1"] encZO encZO dfInts dfStrs rfl rfl rfl rfl rfl
  exact ⟨h, rfl⟩

/-- C6: saving an encoder to a path and loading that path back yields an
encoder whose `transform` output on every dataframe is identical to the
original's (same codes, same absence-marker, same error).  The joblib
persistence layer is modelled from the spec as a path-indexed store. -/
theorem C6_save_load_round_trip (e : CustomTargetEncoder) (path : String)
    (store : JoblibStore) :
    ∃ e2, load_target_encoder path (save_target_encoder e path store) = some e2 ∧
      ∀ data : DFrame, e2.transform data = e.transform data := by
  refine ⟨e, ?_, fun data => rfl⟩
  simp only [load_target_encoder, joblib_load, save_target_encoder, joblib_dump]
  rw [List.find?_cons_of_pos _ (by simp)]
  rfl

/-- C7: `fit` is a pure no-op: it returns the encoder itself, inspects
nothing of its argument (its result does not depend on the data), and
leaves every field unchanged; `train_target_encoder` therefore returns
its input encoder unchanged. -/
theorem C7_fit_noop (e : CustomTargetEncoder) (data data2 : DFrame) :
    e.fit data = e ∧ e.fit data = e.fit data2 ∧
    train_target_encoder e data = e :=
  ⟨rfl, rfl, rfl⟩

/-- C8: `transform` is side-effect-free: the stateful reading of the
method returns the encoder (its mapping included) and the input
dataframe unchanged on every path, its result is the pure `transform`,
and an immediately repeated call on the returned state yields the same
result. -/
theorem C8_transform_effect_free (e : CustomTargetEncoder) (data : DFrame) :
    (e.transformS data).2.1 = e ∧ (e.transformS data).2.2 = data ∧
    (e.transformS data).1 = e.transform data ∧
    ((e.transformS data).2.1.transformS (e.transformS data).2.2).1
      = (e.transformS data).1 := by
  have hS : e.transformS data = (e.transform data, e, data) := by
    simp only [CustomTargetEncoder.transformS, CustomTargetEncoder.transform]
    split_ifs <;> rfl
  refine ⟨by rw [hS], by rw [hS], by rw [hS], ?_⟩
  rw [hS]
  show (e.transformS data).1 = e.transform data
  rw [hS]

/-- A nodup list whose elements are all equal has at most one element. -/
theorem nodup_all_eq_length_le_one (l : List String) (a : String)
    (hnd : l.Nodup) (h : ∀ x ∈ l, x = a) : l.length ≤ 1 := by
  match l, hnd with
  | [], _ => simp
  | [x], _ => simp
  | x :: y :: t, hnd =>
    exfalso
    have hx := h x (by simp)
    have hy := h y (by simp)
    have hne : x ≠ y := by
      rw [List.nodup_cons] at hnd
      exact fun hxy => hnd.1 (hxy ▸ List.mem_cons_self y t)
    exact hne (hx.trans hy.symm)

/-- Counterexample to C9 as stated: extra configured values beyond the
first two are not silently ignored.  `"C"` is retained in `classes_`,
and the `["A","B","C"]` configuration accepts the column `["A","C"]`
(returning `[0, NaN]`) where the `["A","B"]` configuration raises the
class-mismatch error: the extra entry changes observable behavior via
the intersection check. -/
theorem C9_counterexample :
    CustomTargetEncoder.init "t" [PyVal.str "A", PyVal.str "B"] = some encAB ∧
    CustomTargetEncoder.init "t"
      [PyVal.str "A", PyVal.str "B", PyVal.str "C"] = some encABC ∧
    "C" ∈ encABC.classes_ ∧
    encAB.transform dfAC =
      Except.error (TError.classMismatch ["A", "B"] ["A", "C"]) ∧
    encABC.transform dfAC = Except.ok (some [some 0, none]) :=
  ⟨rfl, rfl, by decide, rfl, rfl⟩

/-- C9 (amended): construction performs no cardinality validation of
`allowed_values`: building the class-to-code mapping accesses only
indices 0 and 1 of the stringified list, so construction with fewer than
two elements fails with an out-of-range access, and elements beyond the
first two never enter the mapping; they are however retained in
`classes_` (which `transform`'s intersection check reads), not
behaviorally ignored. -/
theorem C9_no_construction_validation (tf : String) (l : List PyVal)
    (v0 v1 : PyVal) (rest : List PyVal) (hl : l = v0 :: v1 :: rest) :
    (∀ l2 : List PyVal, l2.length < 2 →
      CustomTargetEncoder.init tf l2 = none) ∧
    CustomTargetEncoder.init tf l =
      some ⟨tf, l.map pyStr,
        dictInsert (dictInsert [] (pyStr v0) 0) (pyStr v1) 1⟩ ∧
    (∀ p ∈ dictInsert (dictInsert [] (pyStr v0) 0) (pyStr v1) 1,
      p.1 = pyStr v0 ∨ p.1 = pyStr v1) ∧
    (∀ v ∈ rest, pyStr v ∈ l.map pyStr) := by
  subst hl
  refine ⟨fun l2 h => CustomTargetEncoder.init_short tf l2 h,
    CustomTargetEncoder.init_cons_cons tf v0 v1 rest, ?_, ?_⟩
  · by_cases hss : pyStr v0 = pyStr v1
    · rw [dictInsert_nil, hss, dictInsert_single_eq]
      intro p hp
      simp only [List.mem_singleton] at hp
      right
      rw [hp]
    · rw [dictInsert_nil, dictInsert_single_ne _ _ _ _ hss]
      intro p hp
      simp only [List.mem_cons, List.mem_singleton, List.not_mem_nil,
        or_false] at hp
      rcases hp with rfl | rfl
      · left; rfl
      · right; rfl
  · intro v hv
    exact List.mem_map.2 ⟨v, by simp [hv], rfl⟩

/-- Witness for C9 (amended): a one-element configuration fails at
construction; the three-element configuration `["A","B","C"]` succeeds
with mapping `{"A": 0, "B": 1}` and keeps `"C"` in `classes_`. -/
theorem C9_no_construction_validation_witness :
    CustomTargetEncoder.init "t" [PyVal.str "A"] = none ∧
    CustomTargetEncoder.init "t"
      [PyVal.str "A", PyVal.str "B", PyVal.str "C"]
      = some ⟨"t", ["A", "B", "C"], [("A", 0), ("B", 1)]⟩ := by
  have h := C9_no_construction_validation "t"
    [PyVal.str "A", PyVal.str "B", PyVal.str "C"] (PyVal.str "A")
    (PyVal.str "B") [PyVal.str "C"] rfl
  exact ⟨h.1 [PyVal.str "A"] (by decide), h.2.1.trans rfl⟩

/-- C10: if the two configured allowed values stringify to the same
label, construction succeeds and the mapping collapses to the single
entry sending that label to 1 (the second dict assignment overwrites the
first); under such a configuration, every dataframe with the target
column present makes `transform` raise: either the distinct-count check
or the intersection-size check fails, so no encoding can succeed. -/
theorem C10_duplicate_labels (tf : String) (a b : PyVal)
    (hs : pyStr a = pyStr b) :
    ∃ e, CustomTargetEncoder.init tf [a, b] = some e ∧
      e.class_encoding = [(pyStr a, 1)] ∧
      ∀ data : DFrame, tf ∈ data.columns →
        ∃ err, e.transform data = Except.error err := by
  refine ⟨⟨tf, [pyStr a, pyStr b], [(pyStr a, 1)]⟩, ?_, rfl, ?_⟩
  · have hins : dictInsert (dictInsert [] (pyStr a) 0) (pyStr b) 1
        = [(pyStr a, 1)] := by
      rw [dictInsert_nil, ← hs, dictInsert_single_eq]
    rw [CustomTargetEncoder.init_cons_cons, hins]
    rfl
  · intro data hcol
    by_cases h2 : (((data.getCol tf).map pyStr).dedup).length = 2
    · refine ⟨_, CustomTargetEncoder.transform_mismatch
        ⟨tf, [pyStr a, pyStr b], [(pyStr a, 1)]⟩ data hcol h2 ?_⟩
      show (((data.getCol tf).map pyStr).dedup.filter
        (fun c => decide (c ∈ ([pyStr a, pyStr b] : List String)))).length ≠ 2
      have hnd := List.nodup_dedup ((data.getCol tf).map pyStr)
      have hall : ∀ x ∈ (((data.getCol tf).map pyStr).dedup.filter
          (fun c => decide (c ∈ ([pyStr a, pyStr b] : List String)))),
          x = pyStr a := by
        intro x hx
        have hmem := of_decide_eq_true (List.mem_filter.1 hx).2
        simp only [List.mem_cons, List.not_mem_nil, or_false] at hmem
        rcases hmem with h | h
        · exact h
        · exact h.trans hs.symm
      have hle := nodup_all_eq_length_le_one _ (pyStr a)
        (hnd.filter _) hall
      omega
    · exact ⟨_, CustomTargetEncoder.transform_wrong_count
        ⟨tf, [pyStr a, pyStr b], [(pyStr a, 1)]⟩ data hcol h2⟩

/-- Witness for C10: the duplicate configuration `["X","X"]` collapses
to the mapping `{"X": 1}` and fails on the concrete column `["A","A"]`. -/
theorem C10_duplicate_labels_witness :
    ∃ err, CustomTargetEncoder.transform
      ⟨"t", ["X", "X"], [("X", 1)]⟩ dfAA = Except.error err := by
  obtain ⟨e, he, henc, herr⟩ :=
    C10_duplicate_labels "t" (PyVal.str "X") (PyVal.str "X") rfl
  have hE : (⟨"t", ["X", "X"], [("X", 1)]⟩ : CustomTargetEncoder) = e :=
    Option.some.inj ((rfl : CustomTargetEncoder.init "t"
      [PyVal.str "X", PyVal.str "X"]
      = some ⟨"t", ["X", "X"], [("X", 1)]⟩).symm.trans he)
  rw [hE]
  exact herr dfAA (by decide)
